import Mathlib

/-!
Shallow embedding of the knoxite snapshot pipeline (src/lib/snapshot.go) and
the Amazon S3 storage backend (src/storage/amazons3/storage_amazons3.go),
together with proofs settling the frozen claims about them.

Code that this repository uses but that is not under src/ (the crypto,
compression and JSON transforms, the chunker, the path helpers and the minio
client) is modelled from the specification, with a doc comment saying so on
each such definition. Everything else is translated directly from the Go
source.
-/

namespace GoStrings

/-- Modelled from the Go standard library: strings.Split on the slash
separator, written as structural recursion over the character list so that
proofs can evaluate it; the accumulator carries the current segment
reversed. -/
def splitAux : List Char → List Char → List String
  | [], acc => [String.mk acc.reverse]
  | c :: rest, acc =>
      if c = '/' then String.mk acc.reverse :: splitAux rest []
      else splitAux rest (c :: acc)

/-- Modelled from the Go standard library: strings.Split of the string on
the slash separator. -/
def split (p : String) : List String := splitAux p.data []

/-- True when the path starts with a slash, the absoluteness test of Go
path handling. -/
def isAbs (p : String) : Bool :=
  match p.data with
  | '/' :: _ => true
  | _ => false

/-- True when the string starts with dot dot slash, the strings.HasPrefix
test made at lines 59 and 100 of src/lib/snapshot.go. -/
def hasDotDotSlashHead (p : String) : Bool :=
  match p.data with
  | '.' :: '.' :: '/' :: _ => true
  | _ => false

/-- Join segments with slashes, the inverse of split on nonempty output. -/
def join : List String → String
  | [] => ""
  | [s] => s
  | s :: rest => s ++ "/" ++ join rest

end GoStrings

namespace Knoxite

/-- Error kinds of the user-visible error set (spec section 6); `backendFailure`
stands for an arbitrary wrapped backend or chunker cause. -/
inductive Err
  | WrongPassword
  | Corrupt
  | SnapshotMissing
  | RepositoryExists
  | RepositoryMissing
  | ChunkMissing
  | DeleteChunkFailed
  | InvalidUsername
  | InvalidPassword
  | InvalidRepositoryURL
  | AvailableSpaceUnknown
  | UnsupportedScheme
  | backendFailure (cause : String)
  deriving DecidableEq, Repr

/-- Compression codec ID None(0) (spec section 4.3). -/
def CompressionNone : Nat := 0

/-- Compression codec ID GZip(1) (spec section 4.3). -/
def CompressionGZip : Nat := 1

/-- Compression codec ID LZMA(2) (spec section 4.3). -/
def CompressionLZMA : Nat := 2

/-- Aggregate snapshot statistics: the three counters the pipeline in
src/lib/snapshot.go updates (Size, Transferred, StorageSize). -/
structure Stats where
  Size : Nat
  Transferred : Nat
  StorageSize : Nat
  deriving DecidableEq, Repr

/-- Archive entry type: regular file, directory or symlink (spec section 3). -/
inductive ArchiveType
  | File
  | Directory
  | SymLink
  deriving DecidableEq, Repr

/-- Chunk reference as the Add loop in src/lib/snapshot.go sees it: the loop
appends the chunk to archive.Chunks and reads chunk.OriginalSize; the Data
field is released at line 148 and is not modelled. -/
structure Chunk where
  Hash : String
  OriginalSize : Nat
  deriving DecidableEq, Repr

/-- Archive record with the fields src/lib/snapshot.go reads and writes:
Path, Type, Size, StorageSize, Encrypted, Compressed, Chunks. The Go field
Type is spelled Typ here because Type is a Lean keyword. -/
structure Archive where
  Path : String
  Typ : ArchiveType
  Size : Nat
  StorageSize : Nat
  Encrypted : Nat
  Compressed : Nat
  Chunks : List Chunk
  deriving DecidableEq, Repr

/-- Snapshot from src/lib/snapshot.go: ID, Date, Description, Stats and the
Archives map (a Go map from path to archive, embedded as an association list
with overwrite-on-insert). The sync.Mutex field carries no data and the Date
is embedded as a Nat timestamp. -/
structure Snapshot where
  ID : String
  Date : Nat
  Description : String
  Stats : Stats
  Archives : List (String × Archive)
  deriving DecidableEq, Repr

/-- Repository as src/lib/snapshot.go uses it: the schema Version that keys
metadata compression, and the Password that keys encryption and
decryption. -/
structure Repository where
  Version : Nat
  Password : String
  deriving DecidableEq, Repr

/-- Metadata byte buffer, modelled from the spec as the free algebra of the
transforms of sections 4.2, 4.3 and 6: a buffer is canonical JSON of a
snapshot, a compressed buffer tagged with its codec, or a ciphertext tagged
with the password of its key. -/
inductive Blob
  | json (s : Snapshot)
  | compressed (codec : Nat) (inner : Blob)
  | encrypted (password : String) (inner : Blob)
  deriving DecidableEq, Repr

/-- Modelled from the spec: json.Marshal produces the canonical JSON
representation of the snapshot (spec section 4.7). -/
def Marshal (s : Snapshot) : Blob := Blob.json s

/-- Modelled from the spec: json.Unmarshal recovers the snapshot from its
canonical JSON representation; a parse failure on anything else yields
"corrupt snapshot" (spec section 4.7). -/
def Unmarshal : Blob → Except Err Snapshot
  | Blob.json s => Except.ok s
  | _ => Except.error Err.Corrupt

/-- Modelled from the spec: Compress applies the given codec to the buffer
(spec section 4.3). -/
def Compress (b : Blob) (codec : Nat) : Blob := Blob.compressed codec b

/-- Modelled from the spec: Uncompress inverts Compress for a matching codec
and fails on anything else. -/
def Uncompress : Blob → Nat → Except Err Blob
  | Blob.compressed c inner, codec =>
      if c = codec then Except.ok inner else Except.error Err.Corrupt
  | _, _ => Except.error Err.Corrupt

/-- Modelled from the spec: authenticated encryption keyed by the repository
password; the output is self-contained (spec section 4.2). -/
def Encrypt (b : Blob) (password : String) : Blob := Blob.encrypted password b

/-- Modelled from the spec: Decrypt inverts Encrypt under the same password
and fails with the distinct wrong-password error when authentication fails
(spec sections 4.2 and 8, property 6). -/
def Decrypt : Blob → String → Except Err Blob
  | Blob.encrypted pw inner, password =>
      if password = pw then Except.ok inner else Except.error Err.WrongPassword
  | _, _ => Except.error Err.WrongPassword

/-- Abstract snapshot namespace of a backend: blob name to metadata buffer. -/
def SnapStore := List (String × Blob)

/-- Backend SaveSnapshot: store the buffer under the snapshot ID. -/
def saveSnapshotOp (store : SnapStore) (id : String) (b : Blob) : SnapStore :=
  (id, b) :: store

/-- Backend LoadSnapshot: look the snapshot ID up in the snapshot namespace. -/
def loadSnapshotOp (store : SnapStore) (id : String) : Except Err Blob :=
  match List.lookup id store with
  | some b => Except.ok b
  | none => Except.error Err.SnapshotMissing

/-- Compression selector inlined in Save (src/lib/snapshot.go lines 226-232):
start from CompressionNone and switch on the repository version. -/
def saveCompression (version : Nat) : Nat :=
  match version with
  | 1 => CompressionGZip
  | 2 => CompressionLZMA
  | _ => CompressionNone

/-- Compression selector inlined in openSnapshot (src/lib/snapshot.go lines
200-206): start from CompressionNone and switch on the repository version. -/
def openCompression (version : Nat) : Nat :=
  match version with
  | 1 => CompressionGZip
  | 2 => CompressionLZMA
  | _ => CompressionNone

/-- Save (src/lib/snapshot.go lines 219-245): marshal, compress when the
version-selected codec is not None, encrypt with the repository password,
and write through backend.SaveSnapshot under the snapshot ID. The stray
line 224 of the source references an undeclared buffer and is inert; the
marshalled bytes flow through as in every other version of this function. -/
def Snapshot.Save (snapshot : Snapshot) (repository : Repository)
    (store : SnapStore) : Except Err SnapStore :=
  let b := Marshal snapshot
  let compression := saveCompression repository.Version
  let b := if compression ≠ CompressionNone then Compress b compression else b
  let b := Encrypt b repository.Password
  Except.ok (saveSnapshotOp store snapshot.ID b)

/-- openSnapshot (src/lib/snapshot.go lines 188-216): load through
backend.LoadSnapshot, decrypt with the repository password, uncompress when
the version-selected codec is not None, and unmarshal. -/
def openSnapshot (id : String) (repository : Repository)
    (store : SnapStore) : Except Err Snapshot :=
  match loadSnapshotOp store id with
  | Except.error e => Except.error e
  | Except.ok b =>
    match Decrypt b repository.Password with
    | Except.error e => Except.error e
    | Except.ok b =>
      let compression := openCompression repository.Version
      match (if compression ≠ CompressionNone then Uncompress b compression
             else Except.ok b) with
      | Except.error e => Except.error e
      | Except.ok b => Unmarshal b

end Knoxite

namespace Knoxite

/-- C2: metadata compression is selected solely by the repository schema
version, identically in Save and openSnapshot: version 1 selects GZip,
version 2 selects LZMA, and every other version selects no compression. -/
theorem metadata_compression_version_keyed (v : Nat) :
    saveCompression v = openCompression v ∧
    (v = 1 → saveCompression v = CompressionGZip) ∧
    (v = 2 → saveCompression v = CompressionLZMA) ∧
    (v ≠ 1 → v ≠ 2 → saveCompression v = CompressionNone) := by
  refine ⟨?_, ?_, ?_, ?_⟩
  · match v with
    | 0 => rfl
    | 1 => rfl
    | 2 => rfl
    | (n+3) => rfl
  · intro h; subst h; rfl
  · intro h; subst h; rfl
  · intro h1 h2
    match v with
    | 0 => rfl
    | 1 => exact absurd rfl h1
    | 2 => exact absurd rfl h2
    | (n+3) => rfl

/-- Witness for C2 at the concrete versions 1, 2 and 7. -/
theorem metadata_compression_version_keyed_witness :
    saveCompression 1 = CompressionGZip ∧
    saveCompression 2 = CompressionLZMA ∧
    saveCompression 7 = CompressionNone ∧
    saveCompression 7 = openCompression 7 :=
  ⟨(metadata_compression_version_keyed 1).2.1 rfl,
   (metadata_compression_version_keyed 2).2.2.1 rfl,
   (metadata_compression_version_keyed 7).2.2.2 (by decide) (by decide),
   (metadata_compression_version_keyed 7).1⟩

/-- C1: Save followed by openSnapshot under the same repository round-trips:
the snapshot read back is equal to the saved one, hence agrees with it on
ID, Date, Description, Stats and Archives, which are all of its fields. -/
theorem save_open_roundtrip (s : Snapshot) (r : Repository)
    (store store' : SnapStore) (h : s.Save r store = Except.ok store') :
    openSnapshot s.ID r store' = Except.ok s := by
  have hstore : store' =
      saveSnapshotOp store s.ID
        (Encrypt (if saveCompression r.Version ≠ CompressionNone then
            Compress (Marshal s) (saveCompression r.Version)
          else Marshal s) r.Password) := by
    simpa [Snapshot.Save] using h.symm
  subst hstore
  match hv : r.Version with
  | 0 =>
      simp [openSnapshot, loadSnapshotOp, saveSnapshotOp, List.lookup,
        Decrypt, Encrypt, Uncompress, Compress, Marshal, Unmarshal,
        saveCompression, openCompression, hv, CompressionNone,
        CompressionGZip, CompressionLZMA]
  | 1 =>
      simp [openSnapshot, loadSnapshotOp, saveSnapshotOp, List.lookup,
        Decrypt, Encrypt, Uncompress, Compress, Marshal, Unmarshal,
        saveCompression, openCompression, hv, CompressionNone,
        CompressionGZip, CompressionLZMA]
  | 2 =>
      simp [openSnapshot, loadSnapshotOp, saveSnapshotOp, List.lookup,
        Decrypt, Encrypt, Uncompress, Compress, Marshal, Unmarshal,
        saveCompression, openCompression, hv, CompressionNone,
        CompressionGZip, CompressionLZMA]
  | (n+3) =>
      simp [openSnapshot, loadSnapshotOp, saveSnapshotOp, List.lookup,
        Decrypt, Encrypt, Uncompress, Compress, Marshal, Unmarshal,
        saveCompression, openCompression, hv, CompressionNone,
        CompressionGZip, CompressionLZMA]

/-- Witness for C1: a concrete snapshot saved into an empty store under a
version-2 repository reads back equal to itself. -/
theorem save_open_roundtrip_witness :
    openSnapshot "abc12345" ⟨2, "pw"⟩
        ((Snapshot.mk "abc12345" 42 "demo" ⟨3, 2, 1⟩ []).Save ⟨2, "pw"⟩
          [] |>.toOption.getD []) =
      Except.ok (Snapshot.mk "abc12345" 42 "demo" ⟨3, 2, 1⟩ []) :=
  save_open_roundtrip (Snapshot.mk "abc12345" 42 "demo" ⟨3, 2, 1⟩ [])
    ⟨2, "pw"⟩ []
    ((Snapshot.mk "abc12345" 42 "demo" ⟨3, 2, 1⟩ []).Save ⟨2, "pw"⟩
      [] |>.toOption.getD []) rfl

/-- C3: a snapshot saved under password P1 cannot be opened with a different
password P2: openSnapshot fails with the WrongPassword error and returns no
decoded snapshot. -/
theorem wrong_password_isolation (s : Snapshot) (v : Nat) (p1 p2 : String)
    (store store' : SnapStore)
    (hsave : s.Save ⟨v, p1⟩ store = Except.ok store') (hne : p2 ≠ p1) :
    openSnapshot s.ID ⟨v, p2⟩ store' = Except.error Err.WrongPassword := by
  have hstore : store' =
      saveSnapshotOp store s.ID
        (Encrypt (if saveCompression v ≠ CompressionNone then
            Compress (Marshal s) (saveCompression v)
          else Marshal s) p1) := by
    simpa [Snapshot.Save] using hsave.symm
  subst hstore
  simp [openSnapshot, loadSnapshotOp, saveSnapshotOp, List.lookup,
    Decrypt, Encrypt, hne]

/-- Witness for C3: saving with password pw and opening with password other
fails with WrongPassword. -/
theorem wrong_password_isolation_witness :
    openSnapshot "abc12345" ⟨1, "other"⟩
      ((Snapshot.mk "abc12345" 42 "demo" ⟨3, 2, 1⟩ []).Save ⟨1, "pw"⟩
        [] |>.toOption.getD []) = Except.error Err.WrongPassword := by
  exact wrong_password_isolation (Snapshot.mk "abc12345" 42 "demo" ⟨3, 2, 1⟩ [])
    1 "pw" "other" []
    ((Snapshot.mk "abc12345" 42 "demo" ⟨3, 2, 1⟩ []).Save ⟨1, "pw"⟩
      [] |>.toOption.getD []) rfl (by decide)

end Knoxite

namespace AmazonS3

open Knoxite (Err)

/-- URL as NewBackend in src/storage/amazons3/storage_amazons3.go reads it:
scheme, host, user name, optional user password (None when the URL carries
no password) and path. -/
structure URLModel where
  Scheme : String
  Host : String
  Username : String
  Password : Option String
  Path : String
  deriving DecidableEq, Repr

/-- Object-store state of the modelled minio client: bucket name to list of
(object name, payload bytes), newest entry first. -/
structure S3State where
  buckets : List (String × List (String × List Nat))
  deriving DecidableEq, Repr

/-- Modelled minio client operation BucketExists: the bucket is present in
the store. The transient-network error path of the Go client is not
modelled; the call is total here. -/
def bucketExists (st : S3State) (name : String) : Bool :=
  (List.lookup name st.buckets).isSome

/-- Modelled minio client operation MakeBucket: create an empty bucket. The
region argument does not affect the modelled store. -/
def makeBucket (st : S3State) (name : String) (region : String) : S3State :=
  ⟨(name, []) :: st.buckets⟩

/-- Modelled minio client operation StatObject: true exactly when the named
object exists in the named bucket; the Go code treats a stat error as
nonexistence and proceeds to upload. -/
def statObject (st : S3State) (bucket obj : String) : Bool :=
  match List.lookup bucket st.buckets with
  | none => false
  | some objs => (List.lookup obj objs).isSome

/-- Modelled minio client operation PutObject: write the payload and return
the number of bytes written; fails when the bucket does not exist. -/
def putObject (st : S3State) (bucket obj : String) (data : List Nat) :
    Except Err (Nat × S3State) :=
  match List.lookup bucket st.buckets with
  | none => Except.error (Err.backendFailure "NoSuchBucket")
  | some objs =>
      Except.ok (data.length, ⟨(bucket, (obj, data) :: objs) :: st.buckets⟩)

/-- Modelled minio client operation GetObject followed by ReadAll: return
the payload of the named object. -/
def getObject (st : S3State) (bucket obj : String) : Except Err (List Nat) :=
  match List.lookup bucket st.buckets with
  | none => Except.error Err.ChunkMissing
  | some objs =>
    match List.lookup obj objs with
    | some data => Except.ok data
    | none => Except.error Err.ChunkMissing

/-- StorageAmazonS3 from src/storage/amazons3/storage_amazons3.go; the minio
client handle is an opaque type parameter. -/
structure StorageAmazonS3 (Client : Type) where
  url : URLModel
  chunkBucket : String
  snapshotBucket : String
  repositoryBucket : String
  region : String
  client : Client

/-- Blob name derivation shared by LoadChunk and StoreChunk (lines 104 and
115 of the Go source): shasum, a dot, the shard index, an underscore, the
total shard count. -/
def chunkFileName (shasum : String) (part totalParts : Nat) : String :=
  shasum ++ "." ++ toString part ++ "_" ++ toString totalParts

/-- StoreChunk (src/storage/amazons3/storage_amazons3.go lines 114-125): if
StatObject finds the derived blob name in the chunk bucket, return size 0
with no error and leave the store untouched; otherwise PutObject the payload
and return the written size. -/
def StorageAmazonS3.StoreChunk {Client : Type} (backend : StorageAmazonS3 Client)
    (st : S3State) (shasum : String) (part totalParts : Nat)
    (data : List Nat) : Except Err (Nat × S3State) :=
  let fileName := chunkFileName shasum part totalParts
  if statObject st backend.chunkBucket fileName then
    Except.ok (0, st)
  else
    putObject st backend.chunkBucket fileName data

/-- DeleteChunk (src/storage/amazons3/storage_amazons3.go lines 128-131):
unimplemented; it unconditionally returns ErrDeleteChunkFailed without
touching the client. -/
def StorageAmazonS3.DeleteChunk {Client : Type} (backend : StorageAmazonS3 Client)
    (st : S3State) (shasum : String) (part totalParts : Nat) :
    Except Err (Unit × S3State) :=
  Except.error Err.DeleteChunkFailed

/-- InitRepository (src/storage/amazons3/storage_amazons3.go lines 166-207):
for each of the chunk, snapshot and repository buckets in that order, if the
bucket already exists return ErrRepositoryExists, otherwise create it; the
error paths of BucketExists and MakeBucket themselves are not modelled. -/
def StorageAmazonS3.InitRepository {Client : Type}
    (backend : StorageAmazonS3 Client) (st : S3State) : Except Err S3State :=
  if bucketExists st backend.chunkBucket then
    Except.error Err.RepositoryExists
  else
    let st1 := makeBucket st backend.chunkBucket backend.region
    if bucketExists st1 backend.snapshotBucket then
      Except.error Err.RepositoryExists
    else
      let st2 := makeBucket st1 backend.snapshotBucket backend.region
      if bucketExists st2 backend.repositoryBucket then
        Except.error Err.RepositoryExists
      else
        Except.ok (makeBucket st2 backend.repositoryBucket backend.region)

/-- Outcome of a Go call that may return a value, return an error value, or
panic. -/
inductive GoResult (α : Type)
  | ok (val : α)
  | err (e : Err)
  | panicked (msg : String)
  deriving DecidableEq, Repr

/-- Scheme switch opening NewBackend (src/storage/amazons3/storage_amazons3.go
lines 39-47): s3 selects non-SSL, s3s selects SSL, every other scheme
panics. -/
def schemeSSL (scheme : String) : GoResult Bool :=
  if scheme = "s3" then GoResult.ok false
  else if scheme = "s3s" then GoResult.ok true
  else GoResult.panicked "Invalid s3 url scheme"

/-- Remainder of NewBackend after the scheme switch (lines 49-74): validate
user name, password and path shape, construct the minio client (an external
call, passed in as an oracle), and build the backend with the three derived
bucket names. -/
def newBackendRest {Client : Type}
    (minioNew : String → String → String → Bool → Except Err Client)
    (URL : URLModel) (ssl : Bool) : GoResult (StorageAmazonS3 Client) :=
  if URL.Username = "" then GoResult.err Err.InvalidUsername
  else
    match URL.Password with
    | none => GoResult.err Err.InvalidPassword
    | some pw =>
      if (GoStrings.split URL.Path).length ≠ 3 then
        GoResult.err Err.InvalidRepositoryURL
      else
        match minioNew URL.Host URL.Username pw ssl with
        | Except.error e => GoResult.err e
        | Except.ok cl =>
          GoResult.ok
            { url := URL
              chunkBucket := (GoStrings.split URL.Path).getD 2 "" ++ "-chunks"
              snapshotBucket :=
                (GoStrings.split URL.Path).getD 2 "" ++ "-snapshots"
              repositoryBucket :=
                (GoStrings.split URL.Path).getD 2 "" ++ "-repository"
              region := (GoStrings.split URL.Path).getD 1 ""
              client := cl }

/-- NewBackend (src/storage/amazons3/storage_amazons3.go lines 38-75): the
scheme switch, then the rest of the constructor. -/
def NewBackend {Client : Type}
    (minioNew : String → String → String → Bool → Except Err Client)
    (URL : URLModel) : GoResult (StorageAmazonS3 Client) :=
  match schemeSSL URL.Scheme with
  | GoResult.ok ssl => newBackendRest minioNew URL ssl
  | GoResult.err e => GoResult.err e
  | GoResult.panicked msg => GoResult.panicked msg

end AmazonS3

namespace AmazonS3

open Knoxite (Err)

/-- Creating a bucket leaves every other bucket's existence unchanged and
makes the created one exist. -/
theorem bucketExists_makeBucket (st : S3State) (n r m : String) :
    bucketExists (makeBucket st n r) m = (m == n || bucketExists st m) := by
  unfold bucketExists makeBucket
  simp only [List.lookup]
  cases h : m == n <;> simp [h]

/-- C5: StoreChunk is idempotent: when the derived blob name already exists
in the chunk bucket it returns stored size 0 with no error and leaves the
store untouched; otherwise (the chunk bucket being present) it writes the
payload under that name and returns the payload's size. -/
theorem storeChunk_idempotent {Client : Type} (backend : StorageAmazonS3 Client)
    (st : S3State) (shasum : String) (part totalParts : Nat) (data : List Nat) :
    (statObject st backend.chunkBucket (chunkFileName shasum part totalParts) = true →
      backend.StoreChunk st shasum part totalParts data = Except.ok (0, st)) ∧
    (statObject st backend.chunkBucket (chunkFileName shasum part totalParts) = false →
      bucketExists st backend.chunkBucket = true →
      ∃ st', backend.StoreChunk st shasum part totalParts data
          = Except.ok (data.length, st') ∧
        getObject st' backend.chunkBucket (chunkFileName shasum part totalParts)
          = Except.ok data) := by
  constructor
  · intro h
    simp [StorageAmazonS3.StoreChunk, h]
  · intro h hb
    have hlk : ∃ objs, List.lookup backend.chunkBucket st.buckets = some objs := by
      rcases hli : List.lookup backend.chunkBucket st.buckets with _ | objs
      · rw [bucketExists, hli] at hb
        simp at hb
      · exact ⟨objs, rfl⟩
    rcases hlk with ⟨objs, hobjs⟩
    refine ⟨⟨(backend.chunkBucket,
        (chunkFileName shasum part totalParts, data) :: objs) :: st.buckets⟩,
      ?_, ?_⟩
    · simp [StorageAmazonS3.StoreChunk, h, putObject, hobjs]
    · simp [getObject, List.lookup]

/-- Witness for C5: both branches at a concrete store that has the chunk
bucket, holds chunk h0.0_1 and lacks chunk h1.0_1. -/
theorem storeChunk_idempotent_witness :
    ((StorageAmazonS3.mk ⟨"s3", "h", "u", some "p", "/r/b"⟩ "b-chunks"
        "b-snapshots" "b-repository" "r" ()).StoreChunk
      ⟨[("b-chunks", [("h0.0_1", [1, 2])])]⟩ "h0" 0 1 [9]
      = Except.ok (0, ⟨[("b-chunks", [("h0.0_1", [1, 2])])]⟩)) ∧
    getObject
      (((StorageAmazonS3.mk ⟨"s3", "h", "u", some "p", "/r/b"⟩
        "b-chunks" "b-snapshots" "b-repository" "r" ()).StoreChunk
        ⟨[("b-chunks", [("h0.0_1", [1, 2])])]⟩ "h1" 0 1
        [7, 8]).toOption.getD (0, ⟨[]⟩)).2 "b-chunks" "h1.0_1"
      = Except.ok [7, 8] := by
  constructor
  · exact (storeChunk_idempotent _ _ "h0" 0 1 [9]).1 (by decide)
  · obtain ⟨st', h1, h2⟩ := (storeChunk_idempotent
      (StorageAmazonS3.mk ⟨"s3", "h", "u", some "p", "/r/b"⟩ "b-chunks"
        "b-snapshots" "b-repository" "r" ())
      ⟨[("b-chunks", [("h0.0_1", [1, 2])])]⟩ "h1" 0 1 [7, 8]).2
      (by decide) (by decide)
    rw [h1]
    show getObject st' "b-chunks" "h1.0_1" = Except.ok [7, 8]
    exact h2

/-- C9: DeleteChunk of the Amazon S3 backend fails with DeleteChunkFailed on
every input and every store state, so no chunk blob is ever deleted through
this backend. -/
theorem deleteChunk_unimplemented {Client : Type}
    (backend : StorageAmazonS3 Client) (st : S3State) (shasum : String)
    (part totalParts : Nat) :
    backend.DeleteChunk st shasum part totalParts
      = Except.error Err.DeleteChunkFailed := rfl

/-- C6: InitRepository fails with RepositoryExists whenever any of the three
buckets already exists, and when none of them exists it succeeds and creates
all three; the three derived bucket names are pairwise distinct for every
backend NewBackend constructs. -/
theorem initRepository_namespaces {Client : Type}
    (backend : StorageAmazonS3 Client) (st : S3State)
    (h12 : backend.snapshotBucket ≠ backend.chunkBucket)
    (h13 : backend.repositoryBucket ≠ backend.chunkBucket)
    (h23 : backend.repositoryBucket ≠ backend.snapshotBucket) :
    ((bucketExists st backend.chunkBucket = true ∨
      bucketExists st backend.snapshotBucket = true ∨
      bucketExists st backend.repositoryBucket = true) →
      backend.InitRepository st = Except.error Err.RepositoryExists) ∧
    (bucketExists st backend.chunkBucket = false →
     bucketExists st backend.snapshotBucket = false →
     bucketExists st backend.repositoryBucket = false →
      ∃ st', backend.InitRepository st = Except.ok st' ∧
        bucketExists st' backend.chunkBucket = true ∧
        bucketExists st' backend.snapshotBucket = true ∧
        bucketExists st' backend.repositoryBucket = true) := by
  constructor
  · rintro (h | h | h)
    · simp [StorageAmazonS3.InitRepository, h]
    · by_cases hc : bucketExists st backend.chunkBucket <;>
        simp [StorageAmazonS3.InitRepository, hc, bucketExists_makeBucket, h]
    · by_cases hc : bucketExists st backend.chunkBucket
      · simp [StorageAmazonS3.InitRepository, hc]
      · by_cases hs : bucketExists st backend.snapshotBucket <;>
          simp [StorageAmazonS3.InitRepository, hc, hs,
            bucketExists_makeBucket, h]
  · intro h1 h2 h3
    refine ⟨makeBucket (makeBucket (makeBucket st backend.chunkBucket
        backend.region) backend.snapshotBucket backend.region)
        backend.repositoryBucket backend.region, ?_, ?_, ?_, ?_⟩
    · simp [StorageAmazonS3.InitRepository, h1, h2, h3,
        bucketExists_makeBucket, h12, h13, h23]
    · simp [bucketExists_makeBucket, h12, h13, h23]
    · simp [bucketExists_makeBucket, h23]
    · simp [bucketExists_makeBucket]

/-- Witness for C6: a concrete backend over an empty store succeeds and
creates the three buckets; over a store already holding the snapshot bucket
it fails with RepositoryExists. -/
theorem initRepository_namespaces_witness :
    (bucketExists (((StorageAmazonS3.mk ⟨"s3", "h", "u", some "p", "/r/b"⟩
        "b-chunks" "b-snapshots" "b-repository" "r" ()).InitRepository
        ⟨[]⟩).toOption.getD ⟨[]⟩) "b-chunks" = true ∧
     bucketExists (((StorageAmazonS3.mk ⟨"s3", "h", "u", some "p", "/r/b"⟩
        "b-chunks" "b-snapshots" "b-repository" "r" ()).InitRepository
        ⟨[]⟩).toOption.getD ⟨[]⟩) "b-snapshots" = true ∧
     bucketExists (((StorageAmazonS3.mk ⟨"s3", "h", "u", some "p", "/r/b"⟩
        "b-chunks" "b-snapshots" "b-repository" "r" ()).InitRepository
        ⟨[]⟩).toOption.getD ⟨[]⟩) "b-repository" = true) ∧
    (StorageAmazonS3.mk ⟨"s3", "h", "u", some "p", "/r/b"⟩ "b-chunks"
        "b-snapshots" "b-repository" "r" ()).InitRepository
      ⟨[("b-snapshots", [])]⟩ = Except.error Err.RepositoryExists := by
  constructor
  · obtain ⟨st', h1, h2, h3, h4⟩ := (initRepository_namespaces
      (StorageAmazonS3.mk ⟨"s3", "h", "u", some "p", "/r/b"⟩ "b-chunks"
        "b-snapshots" "b-repository" "r" ()) ⟨[]⟩ (by decide) (by decide)
      (by decide)).2 (by decide) (by decide) (by decide)
    rw [h1]
    exact ⟨h2, h3, h4⟩
  · exact (initRepository_namespaces _ ⟨[("b-snapshots", [])]⟩ (by decide)
      (by decide) (by decide)).1 (Or.inr (Or.inl (by decide)))

/-- The remainder of NewBackend after the scheme switch returns a value or
an error, never a panic. -/
theorem newBackendRest_ne_panicked {Client : Type}
    (minioNew : String → String → String → Bool → Except Err Client)
    (URL : URLModel) (ssl : Bool) (msg : String) :
    newBackendRest minioNew URL ssl ≠ GoResult.panicked msg := by
  by_cases hu : URL.Username = ""
  · simp [newBackendRest, hu]
  · cases hp : URL.Password with
    | none => simp [newBackendRest, hu, hp]
    | some pw =>
      by_cases hl : (GoStrings.split URL.Path).length = 3
      · cases hm : minioNew URL.Host URL.Username pw ssl with
        | error e => simp [newBackendRest, hu, hp, hl, hm]
        | ok cl => simp [newBackendRest, hu, hp, hl, hm]
      · simp [newBackendRest, hu, hp, hl]

/-- C10: NewBackend panics with the invalid-scheme message on every URL
whose scheme is neither s3 nor s3s; on the two accepted schemes it never
panics, the scheme switch selecting non-SSL for s3 and SSL for s3s. -/
theorem newBackend_scheme_dispatch {Client : Type}
    (minioNew : String → String → String → Bool → Except Err Client)
    (URL : URLModel) :
    (URL.Scheme ≠ "s3" → URL.Scheme ≠ "s3s" →
      NewBackend minioNew URL = GoResult.panicked "Invalid s3 url scheme") ∧
    (URL.Scheme = "s3" ∨ URL.Scheme = "s3s" →
      ∀ msg, NewBackend minioNew URL ≠ GoResult.panicked msg) ∧
    schemeSSL "s3" = GoResult.ok false ∧
    schemeSSL "s3s" = GoResult.ok true := by
  refine ⟨?_, ?_, rfl, rfl⟩
  · intro h1 h2
    simp [NewBackend, schemeSSL, h1, h2]
  · rintro (h | h) msg <;>
      simpa [NewBackend, schemeSSL, h] using
        newBackendRest_ne_panicked minioNew URL _ msg

/-- Witness for C10: a ftp scheme panics; the s3 scheme does not. -/
theorem newBackend_scheme_dispatch_witness :
    @NewBackend Unit (fun _ _ _ _ => Except.ok ())
      ⟨"ftp", "h", "u", some "p", "/r/b"⟩
      = GoResult.panicked "Invalid s3 url scheme" ∧
    @NewBackend Unit (fun _ _ _ _ => Except.ok ())
      ⟨"s3", "h", "u", some "p", "/r/b"⟩
      ≠ GoResult.panicked "Invalid s3 url scheme" := by
  constructor
  · exact (newBackend_scheme_dispatch (fun _ _ _ _ => Except.ok ())
      ⟨"ftp", "h", "u", some "p", "/r/b"⟩).1 (by decide) (by decide)
  · exact (newBackend_scheme_dispatch (fun _ _ _ _ => Except.ok ())
      ⟨"s3", "h", "u", some "p", "/r/b"⟩).2.1 (Or.inl rfl)
      "Invalid s3 url scheme"

end AmazonS3

namespace Knoxite

/-- Path split into nonempty segments, for the lexical relative-path
computation below. -/
def splitPath (p : String) : List String :=
  (GoStrings.split p).filter (fun s => s ≠ "")

/-- A path is absolute when it starts with a slash. -/
def isAbs (p : String) : Bool := GoStrings.isAbs p

/-- Longest-common-prefix removal on segment lists. -/
def dropCommon : List String → List String → List String × List String
  | a :: as, b :: bs =>
      if a = b then dropCommon as bs else (a :: as, b :: bs)
  | as, bs => (as, bs)

/-- Modelled from the Go standard library: filepath.Rel on cleaned paths
that contain no dot or dot-dot segments (the shape discovery hands the
pipeline). It fails when exactly one of the two paths is absolute, and
otherwise climbs out of the uncommon base segments with dot-dot segments
before descending into the target. -/
def relGo (base targ : String) : Option String :=
  if isAbs base ≠ isAbs targ then none
  else
    let pr := dropCommon (splitPath base) (splitPath targ)
    let segs := pr.1.map (fun _ => "..") ++ pr.2
    if segs.isEmpty then some "."
    else some (GoStrings.join segs)

/-- Path normalization step shared by gatherTargetInformation (lines 58-61)
and Add (lines 99-102) of src/lib/snapshot.go: replace the path by its form
relative to cwd unless Rel failed or the relative form starts with a
dot-dot-slash prefix. -/
def normalizePath (cwd p : String) : String :=
  match relGo cwd p with
  | some rel => if GoStrings.hasDotDotSlashHead rel then p else rel
  | none => p

/-- AddArchive (src/lib/snapshot.go lines 248-250): insert the archive into
the Archives map under its path, replacing any earlier entry for that
path. -/
def Snapshot.AddArchive (snapshot : Snapshot) (archive : Archive) : Snapshot :=
  { snapshot with Archives := (archive.Path, archive) :: snapshot.Archives }

/-- Event sent on the progress channel: newProgress for an archive about to
be processed, a per-chunk progress update, or newProgressError; the error
payload is an Option because the Go code can build a progress error from a
nil error value. -/
inductive Progress
  | entry (archive : Archive)
  | chunkSent (archive : Archive) (total : Stats)
  | errorEvent (e : Option Err)
  deriving DecidableEq, Repr

deriving instance DecidableEq for Except

/-- Oracle for one element of the chunker's output channel: either the
ChunkData carried a non-nil Error, or it carried a chunk together with the
outcome the backend's StoreChunk returns for it. -/
inductive ChunkResult
  | failed (e : Err)
  | ok (chunk : Chunk) (store : Except Err Nat)
  deriving DecidableEq, Repr

/-- Oracle for the chunkFile call on one file: the open failed with a
not-exist error, it failed with some other error, or it produced a stream
of chunk results. -/
inductive ChunkFileOutcome
  | notExist
  | failed (e : Err)
  | chunks (results : List ChunkResult)
  deriving DecidableEq, Repr

/-- ArchiveResult from discovery, as the Add loop consumes it: the Error and
Archive fields of the Go struct, plus the chunker-and-backend oracle for
this entry (chunkFile and the backend live outside src/). -/
structure ArchiveResult where
  Error : Option Err
  Archive : Archive
  outcome : ChunkFileOutcome
  deriving DecidableEq, Repr

/-- Result of the inner chunk loop (src/lib/snapshot.go lines 128-162):
terminal means the loop sent an error, closed the progress channel and
returned; done means every chunk was stored and the loop fell through. -/
inductive ChunkLoopResult
  | terminal (stats : Stats)
  | done (archive : Archive) (stats : Stats)
  deriving DecidableEq, Repr

/-- Inner chunk loop of Add (src/lib/snapshot.go lines 128-162). On a chunk
result carrying a non-nil Error the code emits newProgressError(err) where
err is the chunkFile error, necessarily nil on this path, hence the event
carries none; on a StoreChunk error it emits the error itself; otherwise it
appends the chunk, accumulates storage and transfer sizes and emits a
progress update. -/
def processChunks : List ChunkResult → Archive → Stats →
    List Progress × ChunkLoopResult
  | [], archive, stats => ([], ChunkLoopResult.done archive stats)
  | ChunkResult.failed _ :: _, _, stats =>
      ([Progress.errorEvent none], ChunkLoopResult.terminal stats)
  | ChunkResult.ok chunk store :: rest, archive, stats =>
      match store with
      | Except.error e =>
          ([Progress.errorEvent (some e)], ChunkLoopResult.terminal stats)
      | Except.ok n =>
          let archive' := { archive with
            Chunks := archive.Chunks ++ [chunk],
            StorageSize := archive.StorageSize + n }
          let stats' := { stats with
            Transferred := stats.Transferred + chunk.OriginalSize,
            StorageSize := stats.StorageSize + n }
          let next := processChunks rest archive' stats'
          (Progress.chunkSent archive' stats' :: next.1, next.2)

/-- Processing stage of Add (src/lib/snapshot.go lines 90-169), sequentially
consuming the forwarded archive results: a result carrying an error emits a
final error event and stops; otherwise the path is normalized again, special
paths are skipped, an entry event is emitted, regular files run through
chunkFile (a vanished file is skipped silently, another open error is
terminal, and the chunk loop may end the whole snapshot), and completed
archives are added to the snapshot. The list of emitted events is the
traffic on the progress channel until it is closed; chunk-index updates,
the dataParts floor of line 114 and the chunkFile arguments are absorbed by
the oracle. -/
def addProcess (special : String → Bool) (cwd : String)
    (compress encrypt : Nat) :
    List ArchiveResult → Snapshot → List Progress × Snapshot
  | [], snapshot => ([], snapshot)
  | result :: rest, snapshot =>
    match result.Error with
    | some e => ([Progress.errorEvent (some e)], snapshot)
    | none =>
      let archive :=
        { result.Archive with Path := normalizePath cwd result.Archive.Path }
      if special archive.Path then
        addProcess special cwd compress encrypt rest snapshot
      else
        if archive.Typ = ArchiveType.File then
          match result.outcome with
          | ChunkFileOutcome.notExist =>
              let next := addProcess special cwd compress encrypt rest snapshot
              (Progress.entry archive :: next.1, next.2)
          | ChunkFileOutcome.failed e =>
              ([Progress.entry archive, Progress.errorEvent (some e)],
               snapshot)
          | ChunkFileOutcome.chunks steps =>
              let archive' :=
                { archive with Encrypted := encrypt, Compressed := compress }
              match processChunks steps archive' snapshot.Stats with
              | (evs, ChunkLoopResult.terminal stats') =>
                  (Progress.entry archive :: evs,
                   { snapshot with Stats := stats' })
              | (evs, ChunkLoopResult.done archiveDone stats') =>
                  let snap' :=
                    Snapshot.AddArchive { snapshot with Stats := stats' }
                      archiveDone
                  let next := addProcess special cwd compress encrypt rest snap'
                  (Progress.entry archive :: evs ++ next.1, next.2)
        else
          let snap' := Snapshot.AddArchive snapshot archive
          let next := addProcess special cwd compress encrypt rest snap'
          (Progress.entry archive :: next.1, next.2)

/-- Discovery stage gatherTargetInformation (src/lib/snapshot.go lines
51-81), sequentially over the flattened findFiles output: error results are
forwarded untouched; successful results have their path normalized, special
paths are dropped, and logical sizes are accumulated into the snapshot
statistics. The Go code forwards results through per-result goroutines, so
the forwarding order is nondeterministic; this model keeps discovery order,
and the claims proved about it do not depend on the order. The isSpecialPath
helper lives outside src/ and is passed in as the special predicate,
modelled from the spec: it holds exactly of device, FIFO and socket
paths. -/
def gatherTargetInformation (special : String → Bool) (cwd : String) :
    List ArchiveResult → Stats → List ArchiveResult × Stats
  | [], stats => ([], stats)
  | result :: rest, stats =>
    match result.Error with
    | some _ =>
      let next := gatherTargetInformation special cwd rest stats
      (result :: next.1, next.2)
    | none =>
      let archive :=
        { result.Archive with Path := normalizePath cwd result.Archive.Path }
      if special archive.Path then
        gatherTargetInformation special cwd rest stats
      else
        let stats' := { stats with Size := stats.Size + archive.Size }
        let next := gatherTargetInformation special cwd rest stats'
        ({ result with Archive := archive } :: next.1, next.2)

/-- Add (src/lib/snapshot.go lines 84-172): the discovery stage feeds the
processing stage; the returned event list is the progress channel's traffic
until close. -/
def Snapshot.Add (snapshot : Snapshot) (special : String → Bool)
    (cwd : String) (results : List ArchiveResult)
    (compress encrypt : Nat) : List Progress × Snapshot :=
  let gathered := gatherTargetInformation special cwd results snapshot.Stats
  addProcess special cwd compress encrypt gathered.1
    { snapshot with Stats := gathered.2 }

/-- True of a chunker stream element that carries no error and whose
StoreChunk call succeeds: the condition under which the chunk loop runs to
completion for a file. -/
def chunkOk : ChunkResult → Bool
  | ChunkResult.ok _ (Except.ok _) => true
  | _ => false

end Knoxite


namespace Knoxite

/-- The chunk loop never changes the archive's path: a completed archive
keeps the path it entered the loop with. -/
theorem processChunks_done_path (steps : List ChunkResult) :
    ∀ (archive : Archive) (stats : Stats) (a : Archive) (s : Stats),
      (processChunks steps archive stats).2 = ChunkLoopResult.done a s →
      a.Path = archive.Path := by
  induction steps with
  | nil =>
    intro archive stats a s h
    simp [processChunks] at h
    rw [← h.1]
  | cons step rest ih =>
    intro archive stats a s h
    cases step with
    | failed e => simp [processChunks] at h
    | ok chunk store =>
      cases store with
      | error e => simp [processChunks] at h
      | ok n =>
        simp only [processChunks] at h
        exact ih
          (Archive.mk archive.Path archive.Typ archive.Size
            (archive.StorageSize + n) archive.Encrypted archive.Compressed
            (archive.Chunks ++ [chunk]))
          (Stats.mk stats.Size (stats.Transferred + chunk.OriginalSize)
            (stats.StorageSize + n)) a s h

/-- Every key the processing loop ever inserts into the Archives map has
passed the special-path check, so the map stays free of special paths. -/
theorem addProcess_archives_not_special (special : String → Bool)
    (cwd : String) (compress encrypt : Nat) (results : List ArchiveResult) :
    ∀ (snapshot : Snapshot),
      (∀ k a, (k, a) ∈ snapshot.Archives → special k = false) →
      ∀ k a,
        (k, a) ∈ (addProcess special cwd compress encrypt results
          snapshot).2.Archives →
        special k = false := by
  induction results with
  | nil =>
    intro snapshot hinv k a h
    exact hinv k a (by simpa [addProcess] using h)
  | cons result rest ih =>
    obtain ⟨err, arch, outcome⟩ := result
    obtain ⟨p, ty, sz, ss, en, co, ch⟩ := arch
    intro snapshot hinv k a h
    cases err with
    | some e =>
      simp only [addProcess] at h
      exact hinv k a h
    | none =>
      by_cases hsp : special (normalizePath cwd p) = true
      · simp only [addProcess, hsp, if_true] at h
        exact ih snapshot hinv k a h
      · rw [Bool.not_eq_true] at hsp
        cases ty with
        | File =>
          cases outcome with
          | notExist =>
            simp [addProcess, hsp] at h
            exact ih snapshot hinv k a h
          | failed e =>
            simp [addProcess, hsp] at h
            exact hinv k a h
          | chunks steps =>
            rcases hpc : processChunks steps
              ⟨normalizePath cwd p, ArchiveType.File, sz, ss, encrypt,
                compress, ch⟩ snapshot.Stats with ⟨evs, res⟩
            simp only [addProcess, hsp, Bool.false_eq_true, if_false] at h
            rw [hpc] at h
            cases res with
            | terminal stats' =>
              simp only [] at h
              exact hinv k a h
            | done archiveDone stats' =>
              simp only [] at h
              refine ih (Snapshot.AddArchive
                { snapshot with Stats := stats' } archiveDone) ?_ k a h
              intro k' a' hmem
              simp only [Snapshot.AddArchive, List.mem_cons] at hmem
              rcases hmem with hmem | hmem
              · have hpath := processChunks_done_path steps
                  ⟨normalizePath cwd p, ArchiveType.File, sz, ss, encrypt,
                    compress, ch⟩ snapshot.Stats archiveDone stats'
                  (by rw [hpc])
                rw [Prod.mk.injEq] at hmem
                rw [hmem.1, hpath]
                exact hsp
              · exact hinv k' a' hmem
        | Directory =>
          simp [addProcess, hsp] at h
          refine ih (Snapshot.AddArchive snapshot
            ⟨normalizePath cwd p, ArchiveType.Directory, sz, ss, en, co, ch⟩)
            ?_ k a h
          intro k' a' hmem
          simp only [Snapshot.AddArchive, List.mem_cons] at hmem
          rcases hmem with hmem | hmem
          · rw [Prod.mk.injEq] at hmem
            rw [hmem.1]
            exact hsp
          · exact hinv k' a' hmem
        | SymLink =>
          simp [addProcess, hsp] at h
          refine ih (Snapshot.AddArchive snapshot
            ⟨normalizePath cwd p, ArchiveType.SymLink, sz, ss, en, co, ch⟩)
            ?_ k a h
          intro k' a' hmem
          simp only [Snapshot.AddArchive, List.mem_cons] at hmem
          rcases hmem with hmem | hmem
          · rw [Prod.mk.injEq] at hmem
            rw [hmem.1]
            exact hsp
          · exact hinv k' a' hmem

end Knoxite

namespace Knoxite

/-- C7: a regular file that vanished between discovery and open (chunkFile
failing with a not-exist error) is skipped silently: the processing loop
emits only the entry event for it, no error event, leaves the snapshot
untouched, and continues with the remaining entries. -/
theorem add_vanished_file_skipped (special : String → Bool) (cwd : String)
    (compress encrypt : Nat) (result : ArchiveResult)
    (rest : List ArchiveResult) (snapshot : Snapshot)
    (herr : result.Error = none)
    (hout : result.outcome = ChunkFileOutcome.notExist)
    (hty : result.Archive.Typ = ArchiveType.File)
    (hsp : special (normalizePath cwd result.Archive.Path) = false) :
    addProcess special cwd compress encrypt (result :: rest) snapshot =
      (Progress.entry { result.Archive with
          Path := normalizePath cwd result.Archive.Path } ::
        (addProcess special cwd compress encrypt rest snapshot).1,
       (addProcess special cwd compress encrypt rest snapshot).2) := by
  obtain ⟨err, arch, outcome⟩ := result
  obtain ⟨p, ty, sz, ss, en, co, ch⟩ := arch
  simp only at herr hout hty hsp
  subst herr hout hty
  simp [addProcess, hsp]

/-- Witness for C7: a vanished file followed by a directory entry produces
only the entry events and stores only the directory. -/
theorem add_vanished_file_skipped_witness :
    addProcess (fun _ => false) "/cwd" 0 0
      [ArchiveResult.mk none
        (Archive.mk "/cwd/v" ArchiveType.File 3 0 0 0 [])
        ChunkFileOutcome.notExist,
       ArchiveResult.mk none
        (Archive.mk "/cwd/d" ArchiveType.Directory 1 0 0 0 [])
        (ChunkFileOutcome.chunks [])]
      (Snapshot.mk "id" 0 "" (Stats.mk 4 0 0) []) =
      (Progress.entry (Archive.mk "v" ArchiveType.File 3 0 0 0 []) ::
        (addProcess (fun _ => false) "/cwd" 0 0
          [ArchiveResult.mk none
            (Archive.mk "/cwd/d" ArchiveType.Directory 1 0 0 0 [])
            (ChunkFileOutcome.chunks [])]
          (Snapshot.mk "id" 0 "" (Stats.mk 4 0 0) [])).1,
       (addProcess (fun _ => false) "/cwd" 0 0
          [ArchiveResult.mk none
            (Archive.mk "/cwd/d" ArchiveType.Directory 1 0 0 0 [])
            (ChunkFileOutcome.chunks [])]
          (Snapshot.mk "id" 0 "" (Stats.mk 4 0 0) [])).2) := by
  have h := add_vanished_file_skipped (fun _ => false) "/cwd" 0 0
    (ArchiveResult.mk none
      (Archive.mk "/cwd/v" ArchiveType.File 3 0 0 0 [])
      ChunkFileOutcome.notExist)
    [ArchiveResult.mk none
      (Archive.mk "/cwd/d" ArchiveType.Directory 1 0 0 0 [])
      (ChunkFileOutcome.chunks [])]
    (Snapshot.mk "id" 0 "" (Stats.mk 4 0 0) []) rfl rfl rfl rfl
  rw [h]
  rfl

/-- C4, observed divergence: a chunk stream reporting the error boom makes
the loop emit a final progress event and close the channel without touching
the later file, as the claim says, but the event carries none instead of
the chunker's error, because line 130 of src/lib/snapshot.go reads the
outer err variable, which is necessarily nil on this path, instead of
cd.Error. -/
theorem add_chunk_error_event_carries_nil :
    addProcess (fun _ => false) "/cwd" 0 0
      [ArchiveResult.mk none
        (Archive.mk "/cwd/f" ArchiveType.File 10 0 0 0 [])
        (ChunkFileOutcome.chunks
          [ChunkResult.failed (Err.backendFailure "boom")]),
       ArchiveResult.mk none
        (Archive.mk "/cwd/g" ArchiveType.File 5 0 0 0 [])
        (ChunkFileOutcome.chunks [])]
      (Snapshot.mk "id" 0 "d" (Stats.mk 15 0 0) []) =
      ([Progress.entry (Archive.mk "f" ArchiveType.File 10 0 0 0 []),
        Progress.errorEvent none],
       Snapshot.mk "id" 0 "d" (Stats.mk 15 0 0) []) := by
  rfl

end Knoxite

namespace GoStrings

/-- Segments produced by splitAux contain no slash when the accumulator
contains none: splitting cuts exactly at the slashes. -/
theorem splitAux_no_slash : ∀ (l acc : List Char),
    (∀ c ∈ acc, c ≠ '/') →
    ∀ s ∈ splitAux l acc, ∀ c ∈ s.data, c ≠ '/' := by
  intro l
  induction l with
  | nil =>
    intro acc hacc s hs c hc
    simp only [splitAux, List.mem_singleton] at hs
    subst hs
    exact hacc c (by simpa using hc)
  | cons ch rest ih =>
    intro acc hacc s hs c hc
    by_cases hch : ch = '/'
    · subst hch
      simp only [splitAux, if_pos rfl] at hs
      rcases List.mem_cons.mp hs with hs | hs
      · subst hs
        exact hacc c (by simpa using hc)
      · exact ih [] (by intro x hx; simp at hx) s hs c hc
    · simp only [splitAux, if_neg hch] at hs
      refine ih (ch :: acc) ?_ s hs c hc
      intro x hx
      rcases List.mem_cons.mp hx with hx | hx
      · subst hx; exact hch
      · exact hacc x hx

/-- Segments of split contain no slash. -/
theorem split_no_slash (p : String) : ∀ s ∈ split p, ∀ c ∈ s.data, c ≠ '/' :=
  splitAux_no_slash p.data [] (by intro c hc; simp at hc)

/-- A string whose first character is not a slash is not absolute. -/
theorem isAbs_eq_false_of_head (t : String) (c : Char) (cs : List Char)
    (hdata : t.data = c :: cs) (hc : c ≠ '/') : isAbs t = false := by
  unfold isAbs
  rw [hdata]
  split
  · rename_i heq
    injection heq with h1 h2
    exact absurd h1 hc
  · rfl

/-- Joining a segment list whose head does not start with a slash yields a
non-absolute string. -/
theorem isAbs_join_cons (s : String) (rest : List String) (c : Char)
    (cs : List Char) (hdata : s.data = c :: cs) (hc : c ≠ '/') :
    isAbs (join (s :: rest)) = false := by
  cases rest with
  | nil => exact isAbs_eq_false_of_head s c cs hdata hc
  | cons r rs =>
    refine isAbs_eq_false_of_head _ c
      (cs ++ ('/' :: (join (r :: rs)).data)) ?_ hc
    show (s ++ "/" ++ join (r :: rs)).data = c :: (cs ++ ('/' :: (join (r :: rs)).data))
    rw [String.data_append, String.data_append, hdata]
    simp

end GoStrings

namespace Knoxite

/-- Dropping the common prefix never invents target segments: the remaining
target side is drawn from the original target segments. -/
theorem dropCommon_snd_subset :
    ∀ (as bs : List String), ∀ x ∈ (dropCommon as bs).2, x ∈ bs := by
  intro as
  induction as with
  | nil =>
    intro bs x hx
    simpa [dropCommon] using hx
  | cons a as ih =>
    intro bs x hx
    cases bs with
    | nil => simpa [dropCommon] using hx
    | cons b bs =>
      by_cases hab : a = b
      · rw [show dropCommon (a :: as) (b :: bs) = dropCommon as bs from by
          simp [dropCommon, hab]] at hx
        exact List.mem_cons_of_mem b (ih bs x hx)
      · rw [show dropCommon (a :: as) (b :: bs) = (a :: as, b :: bs) from by
          simp [dropCommon, hab]] at hx
        exact hx

/-- A successful Rel never returns an absolute path: its output is a dot, or
starts with a dot-dot segment, or starts with a slash-free target
segment. -/
theorem relGo_some_not_abs (base targ r : String)
    (h : relGo base targ = some r) : GoStrings.isAbs r = false := by
  by_cases hmix : isAbs base ≠ isAbs targ
  · simp [relGo, hmix] at h
  · rcases hdc : dropCommon (splitPath base) (splitPath targ) with ⟨bs, ts⟩
    simp only [relGo, hmix, if_false, hdc] at h
    cases bs with
    | cons b bs' =>
      simp only [List.map_cons, List.cons_append, List.isEmpty_cons,
        if_false, Bool.false_eq_true, Option.some.injEq] at h
      subst h
      exact GoStrings.isAbs_join_cons ".." _ '.' ['.'] rfl (by decide)
    | nil =>
      cases ts with
      | nil => simp at h; subst h; rfl
      | cons t ts' =>
        simp only [List.map_nil, List.nil_append, List.isEmpty_cons,
          if_false, Bool.false_eq_true, Option.some.injEq] at h
        subst h
        have hmem : t ∈ splitPath targ := by
          refine dropCommon_snd_subset (splitPath base) (splitPath targ) t ?_
          rw [hdc]
          exact List.mem_cons_self t ts'
        have hts : t ∈ GoStrings.split targ ∧ t ≠ "" := by
          simpa [splitPath, List.mem_filter] using hmem
        rcases htd : t.data with _ | ⟨c, cs⟩
        · exact absurd (by cases t; simp_all) hts.2
        · refine GoStrings.isAbs_join_cons t ts' c cs htd ?_
          refine GoStrings.split_no_slash targ t hts.1 c ?_
          rw [htd]
          exact List.mem_cons_self c cs

/-- Rel fails on a mixed absolute and relative pair. -/
theorem relGo_none_of_mixed (base targ : String)
    (h : isAbs base ≠ isAbs targ) : relGo base targ = none := by
  simp [relGo, h]

/-- When Rel succeeds and its output has no dot-dot-slash prefix, the
normalization stores the relative form. -/
theorem normalizePath_of_rel (cwd p r : String) (h : relGo cwd p = some r)
    (hd : GoStrings.hasDotDotSlashHead r = false) :
    normalizePath cwd p = r := by
  simp [normalizePath, h, hd]

/-- When Rel succeeds but its output escapes with a dot-dot-slash prefix,
the normalization keeps the original path. -/
theorem normalizePath_of_escape (cwd p r : String) (h : relGo cwd p = some r)
    (hd : GoStrings.hasDotDotSlashHead r = true) :
    normalizePath cwd p = p := by
  simp [normalizePath, h, hd]

/-- When Rel fails, the normalization keeps the original path. -/
theorem normalizePath_of_err (cwd p : String) (h : relGo cwd p = none) :
    normalizePath cwd p = p := by
  simp [normalizePath, h]

/-- A key present in an association list is found by lookup. -/
theorem lookup_isSome_of_mem {β : Type} (k : String) (b : β) :
    ∀ (l : List (String × β)), (k, b) ∈ l →
      (List.lookup k l).isSome = true := by
  intro l
  induction l with
  | nil => intro h; simp at h
  | cons hd tl ih =>
    intro h
    rcases hd with ⟨k', b'⟩
    by_cases hk : k = k'
    · simp [List.lookup, hk]
    · rcases List.mem_cons.mp h with heq | hmem
      · rw [Prod.mk.injEq] at heq
        exact absurd heq.1 hk
      · have hbeq : (k == k') = false := by simp [hk]
        simp only [List.lookup, hbeq]
        exact ih hmem

end Knoxite

namespace Knoxite

/-- A chunk stream whose every element stores successfully drives the chunk
loop to completion, and the completed archive keeps its path. -/
theorem processChunks_all_ok (steps : List ChunkResult) :
    ∀ (archive : Archive) (stats : Stats),
      (∀ s ∈ steps, chunkOk s = true) →
      ∃ evs ad stats',
        processChunks steps archive stats
          = (evs, ChunkLoopResult.done ad stats') ∧ ad.Path = archive.Path := by
  induction steps with
  | nil =>
    intro archive stats _
    exact ⟨[], archive, stats, rfl, rfl⟩
  | cons step rest ih =>
    intro archive stats hok
    have hstep := hok step (List.mem_cons_self _ _)
    cases step with
    | failed e => simp [chunkOk] at hstep
    | ok chunk store =>
      cases store with
      | error e => simp [chunkOk] at hstep
      | ok n =>
        obtain ⟨evs, ad, stats', heq, hpath⟩ := ih
          (Archive.mk archive.Path archive.Typ archive.Size
            (archive.StorageSize + n) archive.Encrypted archive.Compressed
            (archive.Chunks ++ [chunk]))
          (Stats.mk stats.Size (stats.Transferred + chunk.OriginalSize)
            (stats.StorageSize + n))
          (fun s hs => hok s (List.mem_cons_of_mem _ hs))
        refine ⟨Progress.chunkSent
          (Archive.mk archive.Path archive.Typ archive.Size
            (archive.StorageSize + n) archive.Encrypted archive.Compressed
            (archive.Chunks ++ [chunk]))
          (Stats.mk stats.Size (stats.Transferred + chunk.OriginalSize)
            (stats.StorageSize + n)) :: evs, ad, stats', ?_, hpath⟩
        simp only [processChunks]
        rw [heq]

/-- The processing loop only ever grows the Archives map: an entry present
at the start is still present at the end. -/
theorem addProcess_archives_mono (special : String → Bool) (cwd : String)
    (compress encrypt : Nat) (results : List ArchiveResult) :
    ∀ (snapshot : Snapshot) (k : String) (a : Archive),
      (k, a) ∈ snapshot.Archives →
      (k, a) ∈ (addProcess special cwd compress encrypt results
        snapshot).2.Archives := by
  induction results with
  | nil => intro snapshot k a h; simpa [addProcess] using h
  | cons result rest ih =>
    obtain ⟨err, arch, outcome⟩ := result
    obtain ⟨p, ty, sz, ss, en, co, ch⟩ := arch
    intro snapshot k a h
    cases err with
    | some e => simpa [addProcess] using h
    | none =>
      by_cases hsp : special (normalizePath cwd p) = true
      · simp only [addProcess, hsp, if_true]
        exact ih snapshot k a h
      · rw [Bool.not_eq_true] at hsp
        cases ty with
        | File =>
          cases outcome with
          | notExist =>
            simp only [addProcess, hsp, Bool.false_eq_true, if_false]
            exact ih snapshot k a h
          | failed e =>
            simpa [addProcess, hsp] using h
          | chunks steps =>
            rcases hpc : processChunks steps
              ⟨normalizePath cwd p, ArchiveType.File, sz, ss, encrypt,
                compress, ch⟩ snapshot.Stats with ⟨evs, res⟩
            simp only [addProcess, hsp, Bool.false_eq_true, if_false]
            rw [hpc]
            cases res with
            | terminal stats' => simpa using h
            | done archiveDone stats' =>
              exact ih _ k a (List.mem_cons_of_mem _ h)
        | Directory =>
          simp only [addProcess, hsp, Bool.false_eq_true, if_false]
          exact ih _ k a (List.mem_cons_of_mem _ h)
        | SymLink =>
          simp only [addProcess, hsp, Bool.false_eq_true, if_false]
          exact ih _ k a (List.mem_cons_of_mem _ h)

/-- A head entry with no discovery error, a non-special normalized path and
an all-successful chunk stream ends up in the Archives map under its
normalized path, whatever its type and whatever follows it. -/
theorem addProcess_head_stored (special : String → Bool) (cwd : String)
    (compress encrypt : Nat) (a : Archive) (steps : List ChunkResult)
    (rest : List ArchiveResult) (snapshot : Snapshot)
    (hsp : special (normalizePath cwd a.Path) = false)
    (hok : ∀ s ∈ steps, chunkOk s = true) :
    ∃ stored, (normalizePath cwd a.Path, stored) ∈
      (addProcess special cwd compress encrypt
        (ArchiveResult.mk none a (ChunkFileOutcome.chunks steps) :: rest)
        snapshot).2.Archives := by
  obtain ⟨p, ty, sz, ss, en, co, ch⟩ := a
  simp only [Archive.mk.injEq] at hsp ⊢
  cases ty with
  | File =>
    obtain ⟨evs, ad, stats', hpc, hpath⟩ := processChunks_all_ok steps
      (Archive.mk (normalizePath cwd p) ArchiveType.File sz ss encrypt
        compress ch) snapshot.Stats hok
    simp only [addProcess, hsp, Bool.false_eq_true, if_false]
    rw [hpc]
    refine ⟨ad, addProcess_archives_mono special cwd compress encrypt rest
      _ (normalizePath cwd p) ad ?_⟩
    show (normalizePath cwd p, ad) ∈ (ad.Path, ad) :: snapshot.Archives
    rw [show ad.Path = normalizePath cwd p from hpath]
    exact List.mem_cons_self _ _
  | Directory =>
    simp only [addProcess, hsp, Bool.false_eq_true, if_false]
    refine ⟨Archive.mk (normalizePath cwd p) ArchiveType.Directory sz ss en
      co ch, addProcess_archives_mono special cwd compress encrypt rest
      _ (normalizePath cwd p) _ ?_⟩
    exact List.mem_cons_self _ _
  | SymLink =>
    simp only [addProcess, hsp, Bool.false_eq_true, if_false]
    refine ⟨Archive.mk (normalizePath cwd p) ArchiveType.SymLink sz ss en
      co ch, addProcess_archives_mono special cwd compress encrypt rest
      _ (normalizePath cwd p) _ ?_⟩
    exact List.mem_cons_self _ _

end Knoxite

namespace Knoxite

/-- C8: path normalization, for every discovered path: when Rel against the
caller-supplied absolute working directory succeeds without a leading
dot-dot-slash, the entry is stored in the Archives map under that relative
path; when the relative form escapes with a leading dot-dot-slash, the
entry is stored under its original absolute path; and a special
(device/FIFO/socket) path is never a key of the Archives map of a run
started on a fresh snapshot. -/
theorem path_normalization_storage :
    (∀ (special : String → Bool) (cwd : String) (compress encrypt : Nat)
        (a : Archive) (steps : List ChunkResult) (rest : List ArchiveResult)
        (snapshot : Snapshot) (r : String),
        isAbs cwd = true →
        relGo cwd a.Path = some r →
        GoStrings.hasDotDotSlashHead r = false →
        special r = false →
        (∀ s ∈ steps, chunkOk s = true) →
        (List.lookup r
          (Snapshot.Add snapshot special cwd
            (ArchiveResult.mk none a (ChunkFileOutcome.chunks steps) :: rest)
            compress encrypt).2.Archives).isSome = true) ∧
    (∀ (special : String → Bool) (cwd : String) (compress encrypt : Nat)
        (a : Archive) (steps : List ChunkResult) (rest : List ArchiveResult)
        (snapshot : Snapshot) (r : String),
        relGo cwd a.Path = some r →
        GoStrings.hasDotDotSlashHead r = true →
        special a.Path = false →
        (∀ s ∈ steps, chunkOk s = true) →
        (List.lookup a.Path
          (Snapshot.Add snapshot special cwd
            (ArchiveResult.mk none a (ChunkFileOutcome.chunks steps) :: rest)
            compress encrypt).2.Archives).isSome = true) ∧
    (∀ (id : String) (date : Nat) (descr : String) (stats : Stats)
        (special : String → Bool) (cwd : String)
        (results : List ArchiveResult) (compress encrypt : Nat)
        (k : String) (a : Archive),
        (k, a) ∈ ((Snapshot.mk id date descr stats []).Add special cwd
          results compress encrypt).2.Archives →
        special k = false) := by
  refine ⟨?_, ?_, ?_⟩
  · intro special cwd compress encrypt a steps rest snapshot r habs hrel
      hdot hspr hok
    have hp1 : normalizePath cwd a.Path = r :=
      normalizePath_of_rel cwd a.Path r hrel hdot
    have hrabs : GoStrings.isAbs r = false := relGo_some_not_abs cwd a.Path r hrel
    have hp2 : normalizePath cwd r = r := by
      refine normalizePath_of_err cwd r (relGo_none_of_mixed cwd r ?_)
      have hrabs2 : isAbs r = false := hrabs
      rw [habs, hrabs2]
      simp
    obtain ⟨p, ty, sz, ss, en, co, ch⟩ := a
    simp only [Archive.mk.injEq] at hrel hp1
    obtain ⟨stored, hmem⟩ := addProcess_head_stored special cwd compress
      encrypt (Archive.mk r ty sz ss en co ch) steps
      (gatherTargetInformation special cwd rest
        (Stats.mk (snapshot.Stats.Size + sz) snapshot.Stats.Transferred
          snapshot.Stats.StorageSize)).1
      { snapshot with
        Stats := (gatherTargetInformation special cwd rest
          (Stats.mk (snapshot.Stats.Size + sz) snapshot.Stats.Transferred
            snapshot.Stats.StorageSize)).2 }
      (by simpa [hp2] using hspr) hok
    rw [show normalizePath cwd (Archive.mk r ty sz ss en co ch).Path = r
      from hp2] at hmem
    refine lookup_isSome_of_mem r stored _ ?_
    show (r, stored) ∈ (addProcess special cwd compress encrypt
      (gatherTargetInformation special cwd
        (ArchiveResult.mk none (Archive.mk p ty sz ss en co ch)
          (ChunkFileOutcome.chunks steps) :: rest) snapshot.Stats).1
      { snapshot with
        Stats := (gatherTargetInformation special cwd
          (ArchiveResult.mk none (Archive.mk p ty sz ss en co ch)
            (ChunkFileOutcome.chunks steps) :: rest) snapshot.Stats).2
        }).2.Archives
    rw [show gatherTargetInformation special cwd
        (ArchiveResult.mk none (Archive.mk p ty sz ss en co ch)
          (ChunkFileOutcome.chunks steps) :: rest) snapshot.Stats =
      (ArchiveResult.mk none (Archive.mk r ty sz ss en co ch)
          (ChunkFileOutcome.chunks steps) ::
        (gatherTargetInformation special cwd rest
          (Stats.mk (snapshot.Stats.Size + sz) snapshot.Stats.Transferred
            snapshot.Stats.StorageSize)).1,
       (gatherTargetInformation special cwd rest
          (Stats.mk (snapshot.Stats.Size + sz) snapshot.Stats.Transferred
            snapshot.Stats.StorageSize)).2) from by
      simp [gatherTargetInformation, hp1, hspr]]
    exact hmem
  · intro special cwd compress encrypt a steps rest snapshot r hrel hdot
      hspp hok
    have hp1 : normalizePath cwd a.Path = a.Path :=
      normalizePath_of_escape cwd a.Path r hrel hdot
    obtain ⟨p, ty, sz, ss, en, co, ch⟩ := a
    simp only [Archive.mk.injEq] at hrel hp1 hspp
    obtain ⟨stored, hmem⟩ := addProcess_head_stored special cwd compress
      encrypt (Archive.mk p ty sz ss en co ch) steps
      (gatherTargetInformation special cwd rest
        (Stats.mk (snapshot.Stats.Size + sz) snapshot.Stats.Transferred
          snapshot.Stats.StorageSize)).1
      { snapshot with
        Stats := (gatherTargetInformation special cwd rest
          (Stats.mk (snapshot.Stats.Size + sz) snapshot.Stats.Transferred
            snapshot.Stats.StorageSize)).2 }
      (by simpa [hp1] using hspp) hok
    rw [show normalizePath cwd (Archive.mk p ty sz ss en co ch).Path = p
      from hp1] at hmem
    refine lookup_isSome_of_mem p stored _ ?_
    show (p, stored) ∈ (addProcess special cwd compress encrypt
      (gatherTargetInformation special cwd
        (ArchiveResult.mk none (Archive.mk p ty sz ss en co ch)
          (ChunkFileOutcome.chunks steps) :: rest) snapshot.Stats).1
      { snapshot with
        Stats := (gatherTargetInformation special cwd
          (ArchiveResult.mk none (Archive.mk p ty sz ss en co ch)
            (ChunkFileOutcome.chunks steps) :: rest) snapshot.Stats).2
        }).2.Archives
    rw [show gatherTargetInformation special cwd
        (ArchiveResult.mk none (Archive.mk p ty sz ss en co ch)
          (ChunkFileOutcome.chunks steps) :: rest) snapshot.Stats =
      (ArchiveResult.mk none (Archive.mk p ty sz ss en co ch)
          (ChunkFileOutcome.chunks steps) ::
        (gatherTargetInformation special cwd rest
          (Stats.mk (snapshot.Stats.Size + sz) snapshot.Stats.Transferred
            snapshot.Stats.StorageSize)).1,
       (gatherTargetInformation special cwd rest
          (Stats.mk (snapshot.Stats.Size + sz) snapshot.Stats.Transferred
            snapshot.Stats.StorageSize)).2) from by
      simp [gatherTargetInformation, hp1, hspp]]
    exact hmem
  · intro id date descr stats special cwd results compress encrypt k a h
    exact addProcess_archives_not_special special cwd compress encrypt
      (gatherTargetInformation special cwd results stats).1
      { Snapshot.mk id date descr stats [] with
        Stats := (gatherTargetInformation special cwd results stats).2 }
      (by intro k' a' hmem; simp at hmem) k a h

end Knoxite

namespace Knoxite

/-- Witness for C8: each leg at the claim's own examples: /home/a/x/y under
/home/a is found under x/y, /tmp/z is found under /tmp/z, and a special
dev/null path is not a key of a concrete run that also stored x/y. -/
theorem path_normalization_storage_witness :
    (List.lookup "x/y"
      ((Snapshot.mk "id" 0 "" (Stats.mk 0 0 0) []).Add (fun _ => false)
        "/home/a"
        [ArchiveResult.mk none
          (Archive.mk "/home/a/x/y" ArchiveType.File 4 0 0 0 [])
          (ChunkFileOutcome.chunks [])]
        0 0).2.Archives).isSome = true ∧
    (List.lookup "/tmp/z"
      ((Snapshot.mk "id" 0 "" (Stats.mk 0 0 0) []).Add (fun _ => false)
        "/home/a"
        [ArchiveResult.mk none
          (Archive.mk "/tmp/z" ArchiveType.File 4 0 0 0 [])
          (ChunkFileOutcome.chunks [])]
        0 0).2.Archives).isSome = true ∧
    ((fun p => p == "dev/null") "x/y" = false) := by
  refine ⟨?_, ?_, ?_⟩
  · exact path_normalization_storage.1 (fun _ => false) "/home/a" 0 0
      (Archive.mk "/home/a/x/y" ArchiveType.File 4 0 0 0 []) [] []
      (Snapshot.mk "id" 0 "" (Stats.mk 0 0 0) []) "x/y"
      rfl rfl rfl rfl (by intro s hs; exact absurd hs (List.not_mem_nil s))
  · exact path_normalization_storage.2.1 (fun _ => false) "/home/a" 0 0
      (Archive.mk "/tmp/z" ArchiveType.File 4 0 0 0 []) [] []
      (Snapshot.mk "id" 0 "" (Stats.mk 0 0 0) []) "../../tmp/z"
      rfl rfl rfl (by intro s hs; exact absurd hs (List.not_mem_nil s))
  · exact path_normalization_storage.2.2 "id" 0 "" (Stats.mk 0 0 0)
      (fun p => p == "dev/null") "/home/a"
      [ArchiveResult.mk none
        (Archive.mk "/home/a/dev/null" ArchiveType.File 1 0 0 0 [])
        (ChunkFileOutcome.chunks []),
       ArchiveResult.mk none
        (Archive.mk "/home/a/x/y" ArchiveType.File 4 0 0 0 [])
        (ChunkFileOutcome.chunks [])] 0 0
      "x/y" (Archive.mk "x/y" ArchiveType.File 4 0 0 0 [])
      (by decide)

end Knoxite
